import Mathlib

/-!
Verification of the innovation-assessment core against its specification.

The definitions below are a shallow embedding of the Python sources:
* `roundTo`, `novelty_raw`, `calculate_area` embed `calculate_area` from
  `src/utility/functions.py` (novelty curves, rounding, validation);
* `listMean`, `listStd`, `npClip`, `rescale_values` embed `rescale_values`
  from the same file (population statistics, scale factor 2, clipping,
  optional inversion);
* `quarter_of` embeds the quadrant conditional of `calculate_results`;
* `ReportRow`, `quadrantRows`, `maxAreaRows`, `reportEntry` embed the
  per-quadrant maximum-area report block of `print_results` in
  `src/utility/visualize.py`.

Machine floats are modelled as real numbers; `Python`'s `round(x, p)` is
modelled as round-half-up on `x * 10 ^ p` (no claim below exercises a
half-way tie, so the tie-breaking convention is immaterial).
-/

namespace InnovationAssessment

/-- Model of Python `round(x, precision)`: scale by `10 ^ p`, round to the
nearest integer, and scale back. -/
noncomputable def roundTo (p : ℕ) (x : ℝ) : ℝ :=
  ((round (x * 10 ^ p) : ℤ) : ℝ) / 10 ^ p

lemma roundTo_eq_of (p : ℕ) (x : ℝ) (m : ℤ)
    (h1 : (m : ℝ) ≤ x * 10 ^ p + 1 / 2) (h2 : x * 10 ^ p + 1 / 2 < m + 1) :
    roundTo p x = (m : ℝ) / 10 ^ p := by
  unfold roundTo
  rw [round_eq, Int.floor_eq_iff.mpr ⟨h1, h2⟩]

lemma roundTo_mono (p : ℕ) (x y : ℝ) (h : x ≤ y) : roundTo p x ≤ roundTo p y := by
  unfold roundTo
  have hp : (0 : ℝ) < 10 ^ p := by positivity
  rw [div_le_div_iff_of_pos_right hp]
  have hr : round (x * 10 ^ p) ≤ round (y * 10 ^ p) := by
    rw [round_eq, round_eq]
    exact Int.floor_mono (by nlinarith)
  exact_mod_cast hr

lemma roundTo_zero (p : ℕ) : roundTo p 0 = 0 := by
  unfold roundTo
  simp

lemma roundTo_nonneg (p : ℕ) (x : ℝ) (h : 0 ≤ x) : 0 ≤ roundTo p x := by
  have := roundTo_mono p 0 x h
  rwa [roundTo_zero] at this

lemma roundTo_nonpos (p : ℕ) (x : ℝ) (h : x ≤ 0) : roundTo p x ≤ 0 := by
  have := roundTo_mono p x 0 h
  rwa [roundTo_zero] at this

lemma roundTo_idem (p : ℕ) (x : ℝ) : roundTo p (roundTo p x) = roundTo p x := by
  unfold roundTo
  have hp : (10 : ℝ) ^ p ≠ 0 := by positivity
  rw [div_mul_cancel₀ _ hp, round_intCast]

/-- The two failure modes of `calculate_area`: the Python source raises
`ValueError` with distinct messages for an invalid attribute and for a
quality outside `[-6, 6]`. -/
inductive CalcError where
  | invalidAttribute : CalcError
  | qualityOutOfRange : CalcError
deriving DecidableEq

/-- The novelty curve chosen by the `if attr == ... / elif / else` chain of
`calculate_area`: identity for `"LQ"`, the must-be curve for `"MB"`, and the
attractiveness curve otherwise (reached only with `attr = "A"` after the
membership check). -/
noncomputable def novelty_raw (q : ℝ) (attr : String) : ℝ :=
  if attr = "LQ" then q
  else if attr = "MB" then 0.5 * (q - Real.sqrt (q ^ 2 + 4))
  else 0.5 * (q + Real.sqrt (q ^ 2 + 4))

/-- Embedding of `calculate_area(q, attr, precision)` from
`src/utility/functions.py`: reject an attribute outside `{LQ, MB, A}`, then a
quality outside `[-6, 6]`; otherwise compute the raw novelty `n`, set
`area = round(abs(n * q), precision)` from the raw novelty, and return
`(round(n, precision), round(area, precision))`.  The source defaults
`precision` to `3`; it is an explicit argument here. -/
noncomputable def calculate_area (q : ℝ) (attr : String) (precision : ℕ) :
    Except CalcError (ℝ × ℝ) :=
  if ¬ (attr = "LQ" ∨ attr = "MB" ∨ attr = "A") then
    Except.error CalcError.invalidAttribute
  else if ¬ (-6 ≤ q ∧ q ≤ 6) then
    Except.error CalcError.qualityOutOfRange
  else
    let n := novelty_raw q attr
    let area := roundTo precision |n * q|
    Except.ok (roundTo precision n, roundTo precision area)

lemma novelty_raw_LQ (q : ℝ) : novelty_raw q "LQ" = q := by
  unfold novelty_raw
  rw [if_pos rfl]

lemma novelty_raw_MB (q : ℝ) :
    novelty_raw q "MB" = 0.5 * (q - Real.sqrt (q ^ 2 + 4)) := by
  unfold novelty_raw
  rw [if_neg (by decide), if_pos rfl]

lemma novelty_raw_A (q : ℝ) :
    novelty_raw q "A" = 0.5 * (q + Real.sqrt (q ^ 2 + 4)) := by
  unfold novelty_raw
  rw [if_neg (by decide), if_neg (by decide)]

lemma calculate_area_eq_ok (q : ℝ) (attr : String) (p : ℕ)
    (ha : attr = "LQ" ∨ attr = "MB" ∨ attr = "A") (h1 : -6 ≤ q) (h2 : q ≤ 6) :
    calculate_area q attr p =
      Except.ok (roundTo p (novelty_raw q attr),
        roundTo p (roundTo p |novelty_raw q attr * q|)) := by
  unfold calculate_area
  rw [if_neg (not_not.mpr ha), if_neg (not_not.mpr ⟨h1, h2⟩)]

lemma calculate_area_ok_inv (q : ℝ) (attr : String) (p : ℕ) (n a : ℝ)
    (h : calculate_area q attr p = Except.ok (n, a)) :
    (attr = "LQ" ∨ attr = "MB" ∨ attr = "A") ∧ -6 ≤ q ∧ q ≤ 6 ∧
      n = roundTo p (novelty_raw q attr) ∧
      a = roundTo p (roundTo p |novelty_raw q attr * q|) := by
  by_cases hA : attr = "LQ" ∨ attr = "MB" ∨ attr = "A"
  · by_cases hQ : -6 ≤ q ∧ q ≤ 6
    · rw [calculate_area_eq_ok q attr p hA hQ.1 hQ.2] at h
      simp only [Except.ok.injEq, Prod.mk.injEq] at h
      exact ⟨hA, hQ.1, hQ.2, h.1.symm, h.2.symm⟩
    · unfold calculate_area at h
      rw [if_neg (not_not.mpr hA), if_pos hQ] at h
      exact absurd h (by simp)
  · unfold calculate_area at h
    rw [if_pos hA] at h
    exact absurd h (by simp)

lemma q_le_sqrt_term (q : ℝ) : q ≤ Real.sqrt (q ^ 2 + 4) := by
  calc q ≤ |q| := le_abs_self q
    _ = Real.sqrt (q ^ 2) := (Real.sqrt_sq_eq_abs q).symm
    _ ≤ Real.sqrt (q ^ 2 + 4) := Real.sqrt_le_sqrt (by nlinarith)

lemma neg_q_le_sqrt_term (q : ℝ) : -q ≤ Real.sqrt (q ^ 2 + 4) := by
  calc -q ≤ |q| := neg_le_abs q
    _ = Real.sqrt (q ^ 2) := (Real.sqrt_sq_eq_abs q).symm
    _ ≤ Real.sqrt (q ^ 2 + 4) := Real.sqrt_le_sqrt (by nlinarith)

lemma novelty_raw_MB_nonpos (q : ℝ) : novelty_raw q "MB" ≤ 0 := by
  rw [novelty_raw_MB]
  have := q_le_sqrt_term q
  linarith

lemma novelty_raw_A_nonneg (q : ℝ) : 0 ≤ novelty_raw q "A" := by
  rw [novelty_raw_A]
  have := neg_q_le_sqrt_term q
  linarith

lemma sqrt40_lb : (6.3245 : ℝ) ≤ Real.sqrt 40 :=
  (Real.le_sqrt (by norm_num) (by norm_num)).mpr (by norm_num)

lemma sqrt40_ub : Real.sqrt 40 < 6.3248 :=
  (Real.sqrt_lt' (by norm_num)).mpr (by norm_num)

lemma sqrt_term_le_sqrt40 (q : ℝ) (h1 : -6 ≤ q) (h2 : q ≤ 6) :
    Real.sqrt (q ^ 2 + 4) ≤ Real.sqrt 40 :=
  Real.sqrt_le_sqrt (by nlinarith)

/-- Over the valid domain, every raw novelty curve value is bounded by
`0.5 * (6 + sqrt 40) = 3 + sqrt 10` in absolute value; the bound is attained
at the endpoints of the MB and A curves. -/
lemma novelty_raw_bounds (q : ℝ) (attr : String)
    (ha : attr = "LQ" ∨ attr = "MB" ∨ attr = "A") (h1 : -6 ≤ q) (h2 : q ≤ 6) :
    0.5 * (-6 - Real.sqrt 40) ≤ novelty_raw q attr ∧
      novelty_raw q attr ≤ 0.5 * (6 + Real.sqrt 40) := by
  have hs := sqrt_term_le_sqrt40 q h1 h2
  have hs6 : (6 : ℝ) ≤ Real.sqrt 40 := le_trans (by norm_num) sqrt40_lb
  rcases ha with ha | ha | ha <;> subst ha
  · rw [novelty_raw_LQ]
    constructor <;> linarith
  · rw [novelty_raw_MB]
    have hmb := q_le_sqrt_term q
    constructor <;> linarith
  · rw [novelty_raw_A]
    have hA := neg_q_le_sqrt_term q
    have hnn : (0 : ℝ) ≤ Real.sqrt (q ^ 2 + 4) := Real.sqrt_nonneg _
    constructor <;> linarith

lemma roundTo_upper_endpoint :
    roundTo 3 (0.5 * (6 + Real.sqrt 40)) = 6162 / 1000 := by
  have hl := sqrt40_lb
  have hu := sqrt40_ub
  have h := roundTo_eq_of 3 (0.5 * (6 + Real.sqrt 40)) 6162
    (by push_cast; nlinarith) (by push_cast; nlinarith)
  rw [h]
  norm_num

lemma roundTo_lower_endpoint :
    roundTo 3 (0.5 * (-6 - Real.sqrt 40)) = -(6162 / 1000) := by
  have hl := sqrt40_lb
  have hu := sqrt40_ub
  have h := roundTo_eq_of 3 (0.5 * (-6 - Real.sqrt 40)) (-6162)
    (by push_cast; nlinarith) (by push_cast; nlinarith)
  rw [h]
  norm_num

/-- `np.mean` over a list: sum divided by length (population mean). -/
noncomputable def listMean (values : List ℝ) : ℝ :=
  values.sum / values.length

/-- `np.std` over a list with its default `ddof = 0`: the population standard
deviation, the square root of the mean squared deviation. -/
noncomputable def listStd (values : List ℝ) : ℝ :=
  Real.sqrt ((values.map (fun x => (x - listMean values) ^ 2)).sum / values.length)

/-- `np.clip(a, amin, amax)`: `min(max(a, amin), amax)`. -/
noncomputable def npClip (a amin amax : ℝ) : ℝ :=
  min (max a amin) amax

/-- Embedding of `rescale_values(values, inversed)` from
`src/utility/functions.py`: standardize by the population mean and standard
deviation, scale by 2, clip into `[-6, 6]`, and negate after clipping when
`inversed` is set.  The source performs no emptiness or zero-variance check:
there is no failure path.  (With `std = 0` the float code silently produces
NaN from `0/0`; in this real-number model division by zero yields `0`.) -/
noncomputable def rescale_values (values : List ℝ) (inversed : Bool) : List ℝ :=
  let mean := listMean values
  let std := listStd values
  let normalized_values := values.map (fun x => 2 * (x - mean) / std)
  let rescaled := normalized_values.map (fun x => npClip x (-6) 6)
  if inversed then rescaled.map (fun x => -x) else rescaled

/-- Embedding of the quadrant conditional of `calculate_results`
(`src/utility/functions.py`, the `if quality > 0 / if novelty > 0` block):
strictly positive quality and novelty give `Q1`, positive quality otherwise
`Q2`, non-positive quality gives `Q4` when novelty is strictly positive and
`Q3` otherwise. -/
noncomputable def quarter_of (quality novelty : ℝ) : String :=
  if quality > 0 then
    if novelty > 0 then "Q1" else "Q2"
  else
    if novelty > 0 then "Q4" else "Q3"

/-- One row of the results table built by `calculate_results`, as consumed by
`print_results`.  The numeric cells are modelled as rationals at this
boundary so the report logic stays executable. -/
structure ReportRow where
  feature_name : String
  attr : String
  quality : ℚ
  novelty : ℚ
  area : ℚ
  quarter : String

/-- `data[data['quarter'] == q]` in `print_results`: the rows of one
quadrant, in table order. -/
def quadrantRows (data : List ReportRow) (q : String) : List ReportRow :=
  data.filter (fun r => r.quarter == q)

/-- `quadrant[quadrant['area'] == quadrant['area'].max()]` in
`print_results`.  On an empty quadrant, pandas' `.max()` is NaN and the
comparison selects no row, so the result is the empty table. -/
def maxAreaRows (rows : List ReportRow) : List ReportRow :=
  match (rows.map (fun r => r.area)).max? with
  | none => []
  | some m => rows.filter (fun r => r.area == m)

/-- `max_area['feature_name'].values[0]` and
`max_area['quality'].values[0]` in `print_results`: the head of the
maximum-area rows of a quadrant.  `none` models the `IndexError` that
`.values[0]` raises on an empty frame. -/
def reportEntry (data : List ReportRow) (q : String) : Option (String × ℚ) :=
  match maxAreaRows (quadrantRows data q) with
  | [] => none
  | r :: _ => some (r.feature_name, r.quality)

/-- Claim C3: quadrant assignment is a pure function of the signs of quality
and novelty, with the zero boundary always routed to the
non-strictly-positive branch: `Q1` for both strictly positive, `Q2` for
positive quality only, `Q3` for neither, `Q4` for strictly positive novelty
only; in particular `(quality = 0, novelty = 5)` is classified `Q4`. -/
theorem C3_quadrant_assignment (q n : ℝ) :
    (0 < q → 0 < n → quarter_of q n = "Q1") ∧
    (0 < q → n ≤ 0 → quarter_of q n = "Q2") ∧
    (q ≤ 0 → n ≤ 0 → quarter_of q n = "Q3") ∧
    (q ≤ 0 → 0 < n → quarter_of q n = "Q4") ∧
    quarter_of 0 5 = "Q4" := by
  unfold quarter_of
  refine ⟨?_, ?_, ?_, ?_, ?_⟩
  · intro hq hn
    rw [if_pos hq, if_pos hn]
  · intro hq hn
    rw [if_pos hq, if_neg (not_lt.mpr hn)]
  · intro hq hn
    rw [if_neg (not_lt.mpr hq), if_neg (not_lt.mpr hn)]
  · intro hq hn
    rw [if_neg (not_lt.mpr hq), if_pos hn]
  · rw [if_neg (by norm_num), if_pos (by norm_num)]

/-- Witness for C3: the four sign combinations and the boundary point
evaluated concretely. -/
theorem C3_witness :
    quarter_of 1 1 = "Q1" ∧ quarter_of 1 (-1) = "Q2" ∧
    quarter_of (-1) (-1) = "Q3" ∧ quarter_of (-1) 1 = "Q4" ∧
    quarter_of 0 5 = "Q4" :=
  ⟨(C3_quadrant_assignment 1 1).1 (by norm_num) (by norm_num),
   (C3_quadrant_assignment 1 (-1)).2.1 (by norm_num) (by norm_num),
   (C3_quadrant_assignment (-1) (-1)).2.2.1 (by norm_num) (by norm_num),
   (C3_quadrant_assignment (-1) 1).2.2.2.1 (by norm_num) (by norm_num),
   (C3_quadrant_assignment 0 5).2.2.2.2⟩

/-- Claim C5: the per-feature transform fails with the invalid-category
error for every category outside `{LQ, MB, A}`, and with the out-of-range
error for every quality outside `[-6, 6]` when the category is valid; in
both cases no `(novelty, area)` result is produced (the result is an
`Except.error`, never an `Except.ok`). -/
theorem C5_input_validation (q : ℝ) (s : String) (p : ℕ) :
    (¬ (s = "LQ" ∨ s = "MB" ∨ s = "A") →
      calculate_area q s p = Except.error CalcError.invalidAttribute) ∧
    ((s = "LQ" ∨ s = "MB" ∨ s = "A") → ¬ (-6 ≤ q ∧ q ≤ 6) →
      calculate_area q s p = Except.error CalcError.qualityOutOfRange) := by
  constructor
  · intro h
    unfold calculate_area
    rw [if_pos h]
  · intro h1 h2
    unfold calculate_area
    rw [if_neg (not_not.mpr h1), if_pos h2]

/-- Witness for C5: `calculate_area(1, "XYZ")` and `calculate_area(7, "LQ")`
fail with the two distinct errors. -/
theorem C5_witness :
    calculate_area 1 "XYZ" 3 = Except.error CalcError.invalidAttribute ∧
    calculate_area 7 "LQ" 3 = Except.error CalcError.qualityOutOfRange :=
  ⟨(C5_input_validation 1 "XYZ" 3).1 (by decide),
   (C5_input_validation 7 "LQ" 3).2 (Or.inl rfl) (by norm_num)⟩

/-- Claim C10: the category membership test precedes the quality range test,
so an input that violates both preconditions is rejected with the
invalid-category error, not the out-of-range error. -/
theorem C10_category_before_range (q : ℝ) (s : String) (p : ℕ)
    (h1 : ¬ (s = "LQ" ∨ s = "MB" ∨ s = "A")) (h2 : ¬ (-6 ≤ q ∧ q ≤ 6)) :
    calculate_area q s p = Except.error CalcError.invalidAttribute := by
  unfold calculate_area
  rw [if_pos h1]

/-- Witness for C10: `calculate_area(7, "XYZ")` has both an invalid category
and an out-of-range quality, and reports the invalid category. -/
theorem C10_witness :
    ¬ ("XYZ" = "LQ" ∨ "XYZ" = "MB" ∨ "XYZ" = "A") ∧
    ¬ (-6 ≤ (7 : ℝ) ∧ (7 : ℝ) ≤ 6) ∧
    calculate_area 7 "XYZ" 3 = Except.error CalcError.invalidAttribute :=
  ⟨by decide, by norm_num,
   C10_category_before_range 7 "XYZ" 3 (by decide) (by norm_num)⟩

/-- Counterexample to claim C4: `rescale_values` has no failure path at all.
On the zero-variance input `[5.0]` it returns a one-element list (the float
code silently yields `[nan]` from `0/0`; the real-number model yields `[0]`),
and on the empty input it returns the empty list — in neither case is a
`DomainError` raised or the input rejected. -/
theorem C4_counterexample :
    rescale_values [5] false = [0] ∧ rescale_values [] false = [] := by
  constructor
  · unfold rescale_values listStd listMean
    norm_num [npClip, Real.sqrt_zero]
  · unfold rescale_values
    simp

/-- Claim C4 as amended: `rescale_values` never fails; it is total and
returns a sequence of the same length for every input, including
zero-variance and empty sequences, where the division by `sigma = 0`
silently produces non-finite float values instead of an explicit error. -/
theorem C4_no_domain_check (values : List ℝ) (i : Bool) :
    (rescale_values values i).length = values.length := by
  cases i <;> simp [rescale_values]

/-- Claim C8: rescaling with `inversed = true` equals the element-wise
negation of rescaling with `inversed = false`; the negation is applied after
clipping. -/
theorem C8_inverse_negation (values : List ℝ) (h : listStd values ≠ 0) :
    rescale_values values true = (rescale_values values false).map (fun x => -x) := by
  unfold rescale_values
  simp

lemma listStd_pair : listStd [0, 2] = 1 := by
  unfold listStd listMean
  norm_num

/-- Witness for C8: the nonzero-variance input `[0, 2]`. -/
theorem C8_witness :
    listStd [0, 2] ≠ 0 ∧
    rescale_values [0, 2] true = (rescale_values [0, 2] false).map (fun x => -x) :=
  ⟨by rw [listStd_pair]; norm_num,
   C8_inverse_negation [0, 2] (by rw [listStd_pair]; norm_num)⟩

/-- Claim C9 names the specified behavior (an explicit empty marker for an
empty quadrant, handled gracefully by the report).  The source instead
indexes `.values[0]` on the empty maximum-area frame and raises
`IndexError`.  This theorem evaluates the embedded report logic at the
failing input: a table whose single row lies in `Q3`, so that `Q1` is empty
and the `Q1` report entry has no value (`none` models the `IndexError`
site), while the populated quadrant `Q3` still reports its maximum-area
feature. -/
theorem C9_empty_quadrant_crash :
    reportEntry [⟨"f2", "MB", -2, -3, 5, "Q3"⟩] "Q1" = none ∧
    reportEntry [⟨"f2", "MB", -2, -3, 5, "Q3"⟩] "Q3" = some ("f2", -2) := by
  constructor <;> decide

lemma calc_LQ_3 : calculate_area 3 "LQ" 3 = Except.ok (3, 9) := by
  rw [calculate_area_eq_ok 3 "LQ" 3 (Or.inl rfl) (by norm_num) (by norm_num),
    novelty_raw_LQ, roundTo_idem]
  have h3 : roundTo 3 (3 : ℝ) = 3 := by
    have h := roundTo_eq_of 3 3 3000 (by push_cast; norm_num) (by push_cast; norm_num)
    rw [h]; norm_num
  have h9 : roundTo 3 (9 : ℝ) = 9 := by
    have h := roundTo_eq_of 3 9 9000 (by push_cast; norm_num) (by push_cast; norm_num)
    rw [h]; norm_num
  have habs : |(3 : ℝ) * 3| = 9 := by norm_num
  rw [habs, h3, h9]

lemma calc_LQ_0 : calculate_area 0 "LQ" 3 = Except.ok (0, 0) := by
  rw [calculate_area_eq_ok 0 "LQ" 3 (Or.inl rfl) (by norm_num) (by norm_num),
    novelty_raw_LQ, roundTo_idem]
  norm_num [roundTo_zero]

/-- Claim C7: for every quality in `[-6, 6]` and any precision, the returned
novelty is non-positive for `MB`, non-negative for `A`, and equal to
`round(q, precision)` for `LQ` (whose area is `round(|q * q|, precision)`). -/
theorem C7_curve_signs (q : ℝ) (p : ℕ) (h1 : -6 ≤ q) (h2 : q ≤ 6) :
    (∀ n a, calculate_area q "MB" p = Except.ok (n, a) → n ≤ 0) ∧
    (∀ n a, calculate_area q "A" p = Except.ok (n, a) → 0 ≤ n) ∧
    (∀ n a, calculate_area q "LQ" p = Except.ok (n, a) → n = roundTo p q) ∧
    calculate_area q "LQ" p = Except.ok (roundTo p q, roundTo p |q * q|) := by
  refine ⟨?_, ?_, ?_, ?_⟩
  · intro n a h
    obtain ⟨-, -, -, hn, -⟩ := calculate_area_ok_inv q "MB" p n a h
    rw [hn]
    exact roundTo_nonpos _ _ (novelty_raw_MB_nonpos q)
  · intro n a h
    obtain ⟨-, -, -, hn, -⟩ := calculate_area_ok_inv q "A" p n a h
    rw [hn]
    exact roundTo_nonneg _ _ (novelty_raw_A_nonneg q)
  · intro n a h
    obtain ⟨-, -, -, hn, -⟩ := calculate_area_ok_inv q "LQ" p n a h
    rw [hn, novelty_raw_LQ]
  · rw [calculate_area_eq_ok q "LQ" p (Or.inl rfl) h1 h2, novelty_raw_LQ, roundTo_idem]

/-- Witness for C7: the conclusion at `q = 3`, `p = 3`. -/
theorem C7_witness :
    (-6 : ℝ) ≤ 3 ∧ (3 : ℝ) ≤ 6 ∧
    ((∀ n a, calculate_area 3 "MB" 3 = Except.ok (n, a) → n ≤ 0) ∧
     (∀ n a, calculate_area 3 "A" 3 = Except.ok (n, a) → 0 ≤ n) ∧
     (∀ n a, calculate_area 3 "LQ" 3 = Except.ok (n, a) → n = roundTo 3 3) ∧
     calculate_area 3 "LQ" 3 = Except.ok (roundTo 3 3, roundTo 3 |3 * 3|)) :=
  ⟨by norm_num, by norm_num, C7_curve_signs 3 3 (by norm_num) (by norm_num)⟩

/-- Counterexample to claim C1: the claim prescribes computing the area from
the already-rounded novelty, but the source computes it from the raw
novelty.  At `q = 1.0004` with category `LQ` the code returns area `1.001`
(`round(1.0004², 3)`), while the claim's prescription gives
`round(|round(1.0004, 3) * 1.0004|, 3) = round(1.0004, 3) = 1.000`. -/
theorem C1_counterexample :
    calculate_area (2501 / 2500) "LQ" 3 = Except.ok (1, 1001 / 1000) ∧
    roundTo 3 |(1 : ℝ) * (2501 / 2500)| = 1 ∧ (1001 : ℝ) / 1000 ≠ 1 := by
  have h1 : roundTo 3 ((2501 : ℝ) / 2500) = 1 := by
    have h := roundTo_eq_of 3 ((2501 : ℝ) / 2500) 1000
      (by push_cast; norm_num) (by push_cast; norm_num)
    rw [h]; norm_num
  refine ⟨?_, ?_, by norm_num⟩
  · rw [calculate_area_eq_ok (2501 / 2500) "LQ" 3 (Or.inl rfl)
      (by norm_num) (by norm_num), novelty_raw_LQ, roundTo_idem]
    have habs : |(2501 : ℝ) / 2500 * (2501 / 2500)| = 2501 / 2500 * (2501 / 2500) :=
      abs_of_nonneg (by positivity)
    rw [habs]
    have h2 : roundTo 3 ((2501 : ℝ) / 2500 * (2501 / 2500)) = 1001 / 1000 := by
      have h := roundTo_eq_of 3 ((2501 : ℝ) / 2500 * (2501 / 2500)) 1001
        (by push_cast; norm_num) (by push_cast; norm_num)
      rw [h]; norm_num
    rw [h1, h2]
  · have habs : |(1 : ℝ) * (2501 / 2500)| = 2501 / 2500 := by
      rw [one_mul]
      exact abs_of_nonneg (by positivity)
    rw [habs, h1]

/-- Claim C1 as amended: the returned novelty is the raw curve value rounded
to the given precision, and the returned area is
`round(|n_raw * q|, precision)` computed from the raw (unrounded) novelty
and the raw quality (the source's second rounding of the area is a no-op);
the area is always non-negative. -/
theorem C1_area_from_raw_novelty (q : ℝ) (s : String) (p : ℕ) (n a : ℝ)
    (h : calculate_area q s p = Except.ok (n, a)) :
    n = roundTo p (novelty_raw q s) ∧
    a = roundTo p |novelty_raw q s * q| ∧ 0 ≤ a := by
  obtain ⟨-, -, -, hn, ha⟩ := calculate_area_ok_inv q s p n a h
  refine ⟨hn, ?_, ?_⟩
  · rw [ha, roundTo_idem]
  · rw [ha]
    exact roundTo_nonneg _ _ (roundTo_nonneg _ _ (abs_nonneg _))

/-- Witness for C1: `calculate_area(3, "LQ")` returns `(3, 9)`, the rounded
raw novelty and the rounded raw product. -/
theorem C1_witness :
    calculate_area 3 "LQ" 3 = Except.ok (3, 9) ∧
    (3 : ℝ) = roundTo 3 (novelty_raw 3 "LQ") ∧
    (9 : ℝ) = roundTo 3 |novelty_raw 3 "LQ" * 3| ∧ (0 : ℝ) ≤ 9 :=
  ⟨calc_LQ_3, (C1_area_from_raw_novelty 3 "LQ" 3 3 9 calc_LQ_3).1,
   (C1_area_from_raw_novelty 3 "LQ" 3 3 9 calc_LQ_3).2.1,
   (C1_area_from_raw_novelty 3 "LQ" 3 3 9 calc_LQ_3).2.2⟩

lemma novelty_raw_A6 : novelty_raw 6 "A" = 0.5 * (6 + Real.sqrt 40) := by
  rw [novelty_raw_A]
  norm_num

/-- Counterexample to claim C2: at `q = 6` with category `A` the raw novelty
is `3 + sqrt 10 ≈ 6.1623`, so the returned novelty is `6.162 > 6`, outside
the claimed interval `[-6, 6]`. -/
theorem C2_counterexample :
    calculate_area 6 "A" 3 = Except.ok (6162 / 1000, 36974 / 1000) ∧
    (6 : ℝ) < 6162 / 1000 := by
  refine ⟨?_, by norm_num⟩
  rw [calculate_area_eq_ok 6 "A" 3 (Or.inr (Or.inr rfl)) (by norm_num) (by norm_num),
    novelty_raw_A6, roundTo_idem]
  have hs : (0 : ℝ) ≤ Real.sqrt 40 := Real.sqrt_nonneg _
  have habs : |0.5 * (6 + Real.sqrt 40) * 6| = 0.5 * (6 + Real.sqrt 40) * 6 :=
    abs_of_nonneg (by nlinarith)
  rw [habs, roundTo_upper_endpoint]
  have harea : roundTo 3 (0.5 * (6 + Real.sqrt 40) * 6) = 36974 / 1000 := by
    have hl := sqrt40_lb
    have hu := sqrt40_ub
    have h := roundTo_eq_of 3 (0.5 * (6 + Real.sqrt 40) * 6) 36974
      (by push_cast; nlinarith) (by push_cast; nlinarith)
    rw [h]; norm_num
  rw [harea]

/-- Claim C2 as amended: at the default precision 3 the returned novelty
lies in the closed interval `[-6.162, 6.162]` (the rounded images of the
algebraic bounds `±(3 + sqrt 10)` of the three curves over `[-6, 6]`). -/
theorem C2_novelty_rounded_bound (q : ℝ) (s : String) (n a : ℝ)
    (h : calculate_area q s 3 = Except.ok (n, a)) :
    -(6162 / 1000) ≤ n ∧ n ≤ 6162 / 1000 := by
  obtain ⟨ha, h1, h2, hn, -⟩ := calculate_area_ok_inv q s 3 n a h
  obtain ⟨hlo, hhi⟩ := novelty_raw_bounds q s ha h1 h2
  constructor
  · rw [hn, ← roundTo_lower_endpoint]
    exact roundTo_mono 3 _ _ hlo
  · rw [hn, ← roundTo_upper_endpoint]
    exact roundTo_mono 3 _ _ hhi

/-- Witness for C2: `calculate_area(0, "LQ")` returns novelty `0`, inside
the amended bound. -/
theorem C2_witness :
    calculate_area 0 "LQ" 3 = Except.ok (0, 0) ∧
    -(6162 / 1000) ≤ (0 : ℝ) ∧ (0 : ℝ) ≤ 6162 / 1000 :=
  ⟨calc_LQ_0, (C2_novelty_rounded_bound 0 "LQ" 0 0 calc_LQ_0).1,
   (C2_novelty_rounded_bound 0 "LQ" 0 0 calc_LQ_0).2⟩

/-- Claim C6: for an input with nonzero variance, `rescale_values` maps
element `i` to `clip(2 * (x_i - mean) / std, -6, 6)` using the population
standard deviation, preserves the length and the positional correspondence,
and every output value lies in `[-6, 6]`. -/
theorem C6_rescale_formula (values : List ℝ) (i : ℕ)
    (h : listStd values ≠ 0) (hi : i < values.length) :
    (rescale_values values false).length = values.length ∧
    (rescale_values values false).getD i 0 =
      npClip (2 * (values.getD i 0 - listMean values) / listStd values) (-6) 6 ∧
    -6 ≤ (rescale_values values false).getD i 0 ∧
    (rescale_values values false).getD i 0 ≤ 6 := by
  have hlen : (rescale_values values false).length = values.length := by
    simp [rescale_values]
  have hval : (rescale_values values false).getD i 0 =
      npClip (2 * (values.getD i 0 - listMean values) / listStd values) (-6) 6 := by
    rw [List.getD_eq_getElem _ _ (by rw [hlen]; exact hi),
      List.getD_eq_getElem _ _ hi]
    simp [rescale_values]
  refine ⟨hlen, hval, ?_, ?_⟩
  · rw [hval]
    unfold npClip
    exact le_min (le_max_right _ _) (by norm_num)
  · rw [hval]
    exact min_le_right _ _

/-- Witness for C6: the conclusion at the nonzero-variance input `[0, 2]`,
index `0`. -/
theorem C6_witness :
    listStd [0, 2] ≠ 0 ∧ 0 < ([0, 2] : List ℝ).length ∧
    ((rescale_values [0, 2] false).length = ([0, 2] : List ℝ).length ∧
     (rescale_values [0, 2] false).getD 0 0 =
       npClip (2 * (([0, 2] : List ℝ).getD 0 0 - listMean [0, 2]) / listStd [0, 2])
         (-6) 6 ∧
     -6 ≤ (rescale_values [0, 2] false).getD 0 0 ∧
     (rescale_values [0, 2] false).getD 0 0 ≤ 6) :=
  ⟨by rw [listStd_pair]; norm_num, by simp,
   C6_rescale_formula [0, 2] 0 (by rw [listStd_pair]; norm_num) (by simp)⟩

end InnovationAssessment
